import Mathlib

/-!
Verification of the document classification and parsing-dispatch pipeline of a
broker-statement import library.

The embedding follows `src/index.js` (the pipeline: `findImplementation`,
`parseActivitiesFromPages`, `filterResultActivities`, and the default-exported
`process` function) and `src/errors.js` (the `ParqetError` hierarchy).

Modelling conventions:
* A `Page` is the ordered list of text fragments (PDF) or raw lines (CSV) that
  the external page extractor produced for one page.
* Thrown `ParqetError`s become `Except.error`; JS `undefined` entries inside
  an activities array become `none` in `List (Option α)`; an absent
  `activities` field becomes `none` in `Option (List (Option α))`.
* The individual broker/app parser implementations and the CSV line-to-JSON
  normalisation are external collaborators; they enter as parameters
  (`allImplementations`, `csvLinesToJSON`), exactly as the source consumes
  them through `canParseDocument` / `parsePages`.
* JS dynamic typing at one point matters: `parseActivitiesFromPages` returns
  either the *filtered ParseResult object* (pdf/csv dispatch branches) or the
  initial empty *array* (any other exact-case extension).  `JsActivities`
  is that union.
* The default export builds `new Promise(resolve => ...)` whose `try/catch`
  surrounds only the synchronous `parseFile(file).then(cb)` call.  `parseFile`
  never throws synchronously (it immediately returns a promise), so an error
  thrown inside the `then` callback rejects only the derived promise of the
  `.then` chain; nothing resolves the outer promise, which therefore stays
  pending forever.  `ProcessResult` makes settlement explicit: `settled o`
  when the executor's `resolve` ran with outcome `o`, `pending` when no
  resolution ever happens.
-/

set_option autoImplicit false

namespace TresorImport

/-- One extracted page: ordered text fragments (PDF) or raw lines (CSV). -/
abbrev Page := List String

/-- The error hierarchy of `src/errors.js`.  Every concrete error carries a
numeric Parqet status code in its `data.status` field, plus the message data
its constructor interpolates. -/
inductive ParqetError where
  | documentError (message : String) (fileName : String) (status : Nat)
  | parserError (message : String) (input : String) (status : Nat)
  | activityValidationError (message : String) (status : Nat)
deriving DecidableEq

/-- `error.data.status`, the numeric status code carried by every error. -/
def ParqetError.getStatus : ParqetError → Nat
  | .documentError _ _ s => s
  | .parserError _ _ s => s
  | .activityValidationError _ s => s

/-- The `{activities, status}` object an implementation's `parsePages` returns
and `filterResultActivities` rewrites.  `activities = none` is an absent
(`undefined`) field; an element `none` is an `undefined` slot in the array. -/
structure ParseResult (α : Type) where
  activities : Option (List (Option α))
  status : Nat
deriving DecidableEq

/-- A broker/app parser implementation: the duck-typed capability bundle the
registry stores.  `parsePages` may throw a typed error (status 3 parser
errors etc.), hence `Except`. -/
structure Implementation (α : Type) where
  canParseDocument : List Page → String → Bool
  parsePages : List Page → Except ParqetError (ParseResult α)

/-- The dynamically-typed value `parseActivitiesFromPages` returns: the
variable `activities` is initialised to the empty array and, only in the
`=== 'pdf'` / `=== 'csv'` branches, overwritten with the filtered
`ParseResult` object. -/
inductive JsActivities (α : Type) where
  | arr (elems : List (Option α))
  | obj (result : ParseResult α)
deriving DecidableEq

/-- JS `String.prototype.toLowerCase()` (ASCII case mapping), written
structurally over the character list so that it computes by kernel
reduction. -/
def toLowerCase (s : String) : String :=
  String.mk (s.data.map Char.toLower)

/-- `export const acceptedFileTypes = ['pdf', 'csv']`. -/
def acceptedFileTypes : List String := ["pdf", "csv"]

/-- Message of the status-4 error (apostrophes around the extension elided). -/
def unsupportedTypeMessage (extension : String) : String :=
  "Invalid document. Unsupported file type " ++ extension ++
    ". Extension must be one of [" ++ String.intercalate "," acceptedFileTypes ++ "]."

/-- Message of the status-1 no-implementation error. -/
def noImplementationMessage : String :=
  "Invalid document. Failed to find parser implementation for document."

/-- Message of the status-2 ambiguity error. -/
def multipleImplementationsMessage : String :=
  "Invalid document. Found multiple parser implementations for document."

/-- Message of the status-1 empty-document error. -/
def emptyDocumentMessage : String :=
  "Invalid document. Document is empty."

/-- `findImplementation(pages, fileName, extension)` from `src/index.js`:
gate on the accepted extensions (case-insensitively), then filter the registry
by `canParseDocument`; zero matches throws status 1, several matches status 2,
exactly one is returned.  The registry `allImplementations` (brokers ++ apps)
is a parameter because the implementations live outside the core. -/
def findImplementation {α : Type} (allImplementations : List (Implementation α))
    (pages : List Page) (fileName : String) (extension : String) :
    Except ParqetError (Implementation α) :=
  if !(acceptedFileTypes.contains (toLowerCase extension)) then
    .error (.documentError (unsupportedTypeMessage extension) fileName 4)
  else
    match allImplementations.filter (fun impl => impl.canParseDocument pages extension) with
    | [] => .error (.documentError noImplementationMessage fileName 1)
    | [impl] => .ok impl
    | _ :: _ :: _ => .error (.documentError multipleImplementationsMessage fileName 2)

/-- `filterResultActivities(result)` from `src/index.js`: with an activities
array present, an `undefined` slot poisons the whole result (`activities`
cleared, status 6); an empty array clears `activities` and upgrades status 0
to 5; otherwise the result passes through unchanged. -/
def filterResultActivities {α : Type} (result : ParseResult α) : ParseResult α :=
  match result.activities with
  | some acts =>
    if (acts.filter (fun activity => activity.isNone)).length > 0 then
      { activities := none, status := 6 }
    else
      let numberOfActivities := acts.length
      { activities := if numberOfActivities = 0 then none else some acts
        status := if numberOfActivities = 0 ∧ result.status = 0 then 5 else result.status }
  | none => result

/-- `parseActivitiesFromPages(pages, fileName, extension)` from `src/index.js`.
Empty documents throw status 1 before selection; then the selected
implementation is dispatched on the *exact* extension string: `'pdf'` gets the
pages unchanged, `'csv'` gets the first page re-normalised by the external
`csvLinesToJSON`/`JSON.parse` capability (parameter `csvLinesToJSON`), and any
other casing falls through, returning the initial empty array. -/
def parseActivitiesFromPages {α : Type} (allImplementations : List (Implementation α))
    (csvLinesToJSON : Page → List Page) (pages : List Page)
    (fileName : String) (extension : String) :
    Except ParqetError (JsActivities α) :=
  if pages.length = 0 then
    .error (.documentError emptyDocumentMessage fileName 1)
  else
    match findImplementation allImplementations pages fileName extension with
    | .error e => .error e
    | .ok impl =>
      if extension = "pdf" then
        match impl.parsePages pages with
        | .error e => .error e
        | .ok result => .ok (.obj (filterResultActivities result))
      else if extension = "csv" then
        match impl.parsePages (csvLinesToJSON (pages.headD [])) with
        | .error e => .error e
        | .ok result => .ok (.obj (filterResultActivities result))
      else
        .ok (.arr [])

/-- The terminal per-file record the default export resolves:
`{file, activities, status, successful}`. -/
structure Outcome (α : Type) where
  file : String
  activities : JsActivities α
  status : Nat
  successful : Bool
deriving DecidableEq

/-- Settlement state of the promise the default export returns. -/
inductive ProcessResult (α : Type) where
  | settled (outcome : Outcome α)
  | pending
deriving DecidableEq

/-- `!!activities.length`: a JS array is counted by its length, while the
`.length` property of a plain `ParseResult` object is `undefined`, so the
double negation yields `false`. -/
def jsTruthyLength {α : Type} : JsActivities α → Bool
  | .arr elems => decide (elems.length ≠ 0)
  | .obj _ => false

/-- `file.name.split('.').pop().toLowerCase()` from `parseFile`: the last
`'.'`-separated segment of the name (the whole name when there is no dot),
lower-cased.  The fold keeps exactly the characters seen since the most
recent dot, which is what `split('.').pop()` yields. -/
def fileExtension (fileName : String) : String :=
  toLowerCase
    (String.mk (fileName.data.foldl (fun seg c => if c = '.' then [] else seg ++ [c]) []))

/-- The default export of `src/index.js`.  The page extractor's output
(`parsedFile.pages`) is a parameter; the extension is the lower-cased last
dot-segment of the file name, exactly as `parseFile` computes it.  Per the
promise semantics described in the file header, a `ParqetError` thrown by
`parseActivitiesFromPages` inside the `then` callback escapes the misplaced
`try/catch`, so the returned promise never settles (`pending`); on success the
executor resolves `{file, activities, status: 0, successful: !!activities.length}`. -/
def process {α : Type} (allImplementations : List (Implementation α))
    (csvLinesToJSON : Page → List Page) (fileName : String) (pages : List Page) :
    ProcessResult α :=
  let extension := fileExtension fileName
  match parseActivitiesFromPages allImplementations csvLinesToJSON pages fileName extension with
  | .ok activities =>
    .settled { file := fileName
               activities := activities
               status := 0
               successful := jsTruthyLength activities }
  | .error _ => .pending

/-! ### Concrete instances used by witnesses and failing-input evaluations -/

/-- A trivial stand-in for the external CSV line-to-JSON normalisation. -/
def csvNormalizeId : Page → List Page := fun p => [p]

/-- A one-page document with a single text fragment. -/
def samplePages : List Page := [["x"]]

/-- An implementation that matches every document and parses three valid
activities. -/
def implValid : Implementation Nat :=
  { canParseDocument := fun _ _ => true
    parsePages := fun _ => .ok { activities := some [some 1, some 2, some 3], status := 0 } }

/-- An implementation that matches every document and parses an activities
array with an undefined middle slot. -/
def implPoisoned : Implementation Nat :=
  { canParseDocument := fun _ _ => true
    parsePages := fun _ => .ok { activities := some [some 1, none, some 1], status := 0 } }

/-- An implementation that matches every document and parses an empty
activities array with status 0. -/
def implEmptyParse : Implementation Nat :=
  { canParseDocument := fun _ _ => true
    parsePages := fun _ => .ok { activities := some [], status := 0 } }

/-! ### Helper lemmas -/

/-- With an accepted extension and a singleton filter result, selection
returns that implementation. -/
theorem findImplementation_eq_ok {α : Type} (allImplementations : List (Implementation α))
    (pages : List Page) (fileName extension : String) (impl : Implementation α)
    (hext : acceptedFileTypes.contains (toLowerCase extension) = true)
    (hone : allImplementations.filter (fun i => i.canParseDocument pages extension) = [impl]) :
    findImplementation allImplementations pages fileName extension = .ok impl := by
  unfold findImplementation
  rw [hext, hone]
  rfl

/-! ### Claim theorems -/

/-- C5: for every pages/extension pair with an accepted extension,
`findImplementation` returns the unique matching implementation when the
registry filter yields exactly one (and that implementation does accept the
document), throws the status-1 document error when it yields none, and throws
the status-2 document error when it yields more than one. -/
theorem findImplementation_selection_totality {α : Type}
    (allImplementations : List (Implementation α)) (pages : List Page)
    (fileName extension : String)
    (hext : acceptedFileTypes.contains (toLowerCase extension) = true) :
    (∀ impl : Implementation α,
        allImplementations.filter (fun i => i.canParseDocument pages extension) = [impl] →
        findImplementation allImplementations pages fileName extension = .ok impl ∧
        impl.canParseDocument pages extension = true) ∧
    (allImplementations.filter (fun i => i.canParseDocument pages extension) = [] →
        findImplementation allImplementations pages fileName extension =
          .error (.documentError noImplementationMessage fileName 1)) ∧
    (∀ (implA implB : Implementation α) (rest : List (Implementation α)),
        allImplementations.filter (fun i => i.canParseDocument pages extension) =
          implA :: implB :: rest →
        findImplementation allImplementations pages fileName extension =
          .error (.documentError multipleImplementationsMessage fileName 2)) := by
  refine ⟨fun impl hone => ⟨findImplementation_eq_ok _ _ _ _ _ hext hone, ?_⟩, ?_, ?_⟩
  · have hmem : impl ∈ allImplementations.filter (fun i => i.canParseDocument pages extension) := by
      rw [hone]; exact List.mem_singleton_self impl
    exact (List.mem_filter.mp hmem).2
  · intro hzero
    unfold findImplementation
    rw [hext, hzero]
    rfl
  · intro implA implB rest hmany
    unfold findImplementation
    rw [hext, hmany]
    rfl

/-- Witness for C5 at a concrete registry with exactly one match. -/
theorem findImplementation_selection_totality_witness :
    acceptedFileTypes.contains (toLowerCase "pdf") = true ∧
    findImplementation [implValid] samplePages "a.pdf" "pdf" = .ok implValid ∧
    implValid.canParseDocument samplePages "pdf" = true :=
  ⟨by decide,
    ((findImplementation_selection_totality [implValid] samplePages "a.pdf" "pdf"
        (by decide)).1 implValid rfl).1,
    ((findImplementation_selection_totality [implValid] samplePages "a.pdf" "pdf"
        (by decide)).1 implValid rfl).2⟩

/-- C6: any extension whose lower-cased form is neither pdf nor csv makes
`findImplementation` throw the status-4 document error, for every registry and
every pages value, so no detect predicate can influence the result. -/
theorem findImplementation_extension_gate {α : Type}
    (allImplementations : List (Implementation α)) (pages : List Page)
    (fileName extension : String)
    (h1 : toLowerCase extension ≠ "pdf") (h2 : toLowerCase extension ≠ "csv") :
    findImplementation allImplementations pages fileName extension =
      .error (.documentError (unsupportedTypeMessage extension) fileName 4) := by
  have hc : acceptedFileTypes.contains (toLowerCase extension) = false := by
    simp [acceptedFileTypes, List.contains, h1, h2]
  unfold findImplementation
  rw [hc]
  rfl

/-- Witness for C6 at the extension txt. -/
theorem findImplementation_extension_gate_witness :
    (toLowerCase "txt" ≠ "pdf" ∧ toLowerCase "txt" ≠ "csv") ∧
    findImplementation ([] : List (Implementation Nat)) samplePages "a.txt" "txt" =
      .error (.documentError (unsupportedTypeMessage "txt") "a.txt" 4) :=
  ⟨⟨by decide, by decide⟩,
    findImplementation_extension_gate [] samplePages "a.txt" "txt" (by decide) (by decide)⟩

/-- C7: an activities array containing an undefined slot poisons the whole
result — the filter clears the activities field and sets status 6, discarding
also the valid elements. -/
theorem filterResultActivities_poisoning {α : Type} (result : ParseResult α)
    (acts : List (Option α)) (hacts : result.activities = some acts)
    (hbad : none ∈ acts) :
    filterResultActivities result = { activities := none, status := 6 } := by
  obtain ⟨a, s⟩ := result
  change a = some acts at hacts
  subst hacts
  have hpos : (acts.filter (fun activity => activity.isNone)).length > 0 := by
    have hmem : (none : Option α) ∈ acts.filter (fun activity => activity.isNone) :=
      List.mem_filter.mpr ⟨hbad, rfl⟩
    exact List.length_pos.mpr (List.ne_nil_of_mem hmem)
  simp [filterResultActivities, hpos]

/-- Witness for C7 at a two-slot array with one undefined entry. -/
theorem filterResultActivities_poisoning_witness :
    (({ activities := some [some 1, none], status := 0 } : ParseResult Nat).activities =
        some [some 1, none] ∧ (none : Option Nat) ∈ [some 1, none]) ∧
    filterResultActivities ({ activities := some [some 1, none], status := 0 } : ParseResult Nat) =
      { activities := none, status := 6 } :=
  ⟨⟨rfl, by decide⟩,
    filterResultActivities_poisoning _ [some 1, none] rfl (by decide)⟩

/-- C8: a present, empty activities array clears the activities field; status
0 is upgraded to 5, while a pre-existing non-zero status is preserved. -/
theorem filterResultActivities_empty_activities {α : Type} (result : ParseResult α)
    (hacts : result.activities = some []) :
    (result.status = 0 → filterResultActivities result = { activities := none, status := 5 }) ∧
    (result.status ≠ 0 →
        filterResultActivities result = { activities := none, status := result.status }) := by
  obtain ⟨a, s⟩ := result
  change a = some [] at hacts
  subst hacts
  constructor <;> intro h <;> simp_all [filterResultActivities]

/-- Witness for C8 at empty parses with status 0 and status 3. -/
theorem filterResultActivities_empty_activities_witness :
    filterResultActivities ({ activities := some [], status := 0 } : ParseResult Nat) =
      { activities := none, status := 5 } ∧
    filterResultActivities ({ activities := some [], status := 3 } : ParseResult Nat) =
      { activities := none, status := 3 } :=
  ⟨(filterResultActivities_empty_activities _ rfl).1 rfl,
    (filterResultActivities_empty_activities _ rfl).2 (by decide)⟩

/-- C9: the result filter is idempotent — applying it to its own output
changes nothing. -/
theorem filterResultActivities_idempotent {α : Type} (result : ParseResult α) :
    filterResultActivities (filterResultActivities result) = filterResultActivities result := by
  obtain ⟨a, s⟩ := result
  cases a with
  | none => rfl
  | some acts =>
    by_cases hbad : (acts.filter (fun activity => activity.isNone)).length > 0
    · simp [filterResultActivities, hbad]
    · by_cases hlen : acts.length = 0
      · obtain rfl : acts = [] := List.length_eq_zero.mp hlen
        by_cases hs : s = 0 <;> simp [filterResultActivities, hs]
      · simp [filterResultActivities, hbad, hlen]

/-- C10: a non-empty document whose extension passes the case-insensitive
gate but is not the exact lowercase string (for instance PDF) is matched by
neither dispatch branch; with a uniquely selected implementation the call
returns the initial empty array, independently of that implementation's
`parsePages`. -/
theorem parseActivitiesFromPages_case_mismatch {α : Type}
    (allImplementations : List (Implementation α)) (csvLinesToJSON : Page → List Page)
    (pages : List Page) (fileName extension : String) (impl : Implementation α)
    (hne : pages ≠ [])
    (hext : acceptedFileTypes.contains (toLowerCase extension) = true)
    (hpdf : extension ≠ "pdf") (hcsv : extension ≠ "csv")
    (hone : allImplementations.filter (fun i => i.canParseDocument pages extension) = [impl]) :
    parseActivitiesFromPages allImplementations csvLinesToJSON pages fileName extension =
      .ok (.arr []) := by
  have hlen : ¬ pages.length = 0 := by
    simpa [List.length_eq_zero] using hne
  have hfind : findImplementation allImplementations pages fileName extension = .ok impl :=
    findImplementation_eq_ok _ _ _ _ _ hext hone
  simp [parseActivitiesFromPages, hlen, hfind, hpdf, hcsv]

/-- Witness for C10 at the upper-case extension PDF. -/
theorem parseActivitiesFromPages_case_mismatch_witness :
    (samplePages ≠ ([] : List Page) ∧
      acceptedFileTypes.contains (toLowerCase "PDF") = true ∧
      ("PDF" : String) ≠ "pdf" ∧ ("PDF" : String) ≠ "csv") ∧
    parseActivitiesFromPages [implValid] csvNormalizeId samplePages "f.PDF" "PDF" =
      .ok (.arr []) :=
  ⟨⟨by decide, by decide, by decide, by decide⟩,
    parseActivitiesFromPages_case_mismatch [implValid] csvNormalizeId samplePages "f.PDF" "PDF"
      implValid (by decide) (by decide) (by decide) (by decide) rfl⟩

/-- C1 (failing input): a txt file whose pages are non-empty makes
`parseActivitiesFromPages` throw the status-4 document error inside the then
callback, which the misplaced try/catch never sees, so the promise returned by
the default export never settles instead of resolving a status-coded
outcome. -/
theorem process_pending_on_unsupported_extension :
    process ([] : List (Implementation Nat)) csvNormalizeId "a.txt" samplePages =
      .pending := rfl

/-- C2 (failing input): a csv document matched by exactly one implementation
parsing three valid activities resolves with the filtered ParseResult object
in the activities field, status 0 and successful false, because
`parseActivitiesFromPages` returns the result object rather than the activity
array its own JSDoc promises. -/
theorem process_resolves_unsuccessful_for_valid_activities :
    process [implValid] csvNormalizeId "a.csv" samplePages =
      .settled { file := "a.csv"
                 activities := .obj { activities := some [some 1, some 2, some 3], status := 0 }
                 status := 0
                 successful := false } := rfl

/-- C3 (failing input): a pdf document whose parse yields an activities array
with an undefined slot is filtered to activities absent and status 6, yet the
end-to-end outcome reports status 0 (with the ParseResult object in the
activities field) because the resolver hardcodes status 0 and never reads the
filtered status. -/
theorem process_resolves_status_zero_for_poisoned_activities :
    process [implPoisoned] csvNormalizeId "a.pdf" samplePages =
      .settled { file := "a.pdf"
                 activities := .obj { activities := none, status := 6 }
                 status := 0
                 successful := false } := rfl

/-- C4 (failing input): the empty-parse failure condition fires (the filter
assigns status 5), yet the resolved outcome carries status 0, so a status-0
outcome does not certify that no failure condition of the taxonomy was
triggered. -/
theorem process_status_zero_despite_failure_condition :
    process [implEmptyParse] csvNormalizeId "b.pdf" samplePages =
      .settled { file := "b.pdf"
                 activities := .obj { activities := none, status := 5 }
                 status := 0
                 successful := false } ∧
    (filterResultActivities ({ activities := some [], status := 0 } : ParseResult Nat)).status = 5 :=
  ⟨rfl, rfl⟩

end TresorImport
